import Mathlib

/-!
Shallow embedding of the FoundationDB blob-cipher core (`flow/BlobCipher.h`) and
the ECDSA auth-token signer (`fdbrpc/TokenSign.cpp`).

`flow/BlobCipher.h` only declares the cipher engine, the key cache and the key
derivation; the implementation file is not part of this tree, so those
operations are modelled from the specification (each such definition carries a
doc comment starting `Modelled from the spec:`).  `fdbrpc/TokenSign.cpp` is
present in full and is embedded directly, with the OpenSSL primitives (DER key
parsing, ECDSA digest sign/verify) as explicit functional parameters, and the
AES-256 block permutation likewise a parameter of the CTR engine.  HMAC-SHA-256
is implemented concretely (RFC 6234 / RFC 2104) since the derived-key formula is
pinned to it.

Machine integers are modelled as `Nat` (with explicit `% 2^w` at overflow
points) and `Int` for the signed 64-bit domain id; byte strings are `List Nat`
with each element `< 256`.
-/

namespace FdbBlobCipher

/-- Byte strings: lists of naturals, each `< 256` where well-formedness matters. -/
abbrev Bytes := List Nat

/-- Little-endian encoding of `x % 256^w` on `w` bytes. -/
def toLE : Nat → Nat → Bytes
  | 0, _ => []
  | w + 1, x => (x % 256) :: toLE w (x / 256)

/-- Little-endian decoding of a byte string. -/
def decLE (b : Bytes) : Nat := b.foldr (fun x acc => x + 256 * acc) 0

/-- Big-endian encoding of `x % 256^w` on `w` bytes. -/
def toBE (w x : Nat) : Bytes := (toLE w x).reverse

/-- Big-endian decoding (used for the CTR counter). -/
def decBE (b : Bytes) : Nat := b.foldl (fun acc x => acc * 256 + x) 0

@[simp] theorem toLE_length (w x : Nat) : (toLE w x).length = w := by
  induction w generalizing x with
  | zero => rfl
  | succ w ih => simp [toLE, ih]

@[simp] theorem toBE_length (w x : Nat) : (toBE w x).length = w := by
  simp [toBE]

theorem toLE_lt (w x : Nat) : ∀ b ∈ toLE w x, b < 256 := by
  induction w generalizing x with
  | zero => simp [toLE]
  | succ w ih =>
    intro b hb
    simp only [toLE, List.mem_cons] at hb
    rcases hb with h | h
    · subst h
      exact Nat.mod_lt _ (by omega)
    · exact ih _ _ h

theorem toBE_lt (w x : Nat) : ∀ b ∈ toBE w x, b < 256 := by
  intro b hb
  exact toLE_lt w x b (List.mem_reverse.mp hb)

theorem decLE_toLE (w x : Nat) : decLE (toLE w x) = x % 256 ^ w := by
  induction w generalizing x with
  | zero => simp [toLE, decLE, Nat.mod_one]
  | succ w ih =>
    have h256 : (256 : Nat) ^ (w + 1) = 256 * 256 ^ w := by ring
    simp only [toLE, decLE, List.foldr_cons] at *
    rw [ih, h256, Nat.mod_mul]

theorem decLE_toLE_of_lt {w x : Nat} (h : x < 256 ^ w) : decLE (toLE w x) = x := by
  rw [decLE_toLE, Nat.mod_eq_of_lt h]

/-! ## SHA-256 (RFC 6234) and HMAC (RFC 2104), concretely -/

/-- Truncation to a 32-bit word. -/
def w32 (x : Nat) : Nat := x % 4294967296

/-- 32-bit right rotation. -/
def rotr (n x : Nat) : Nat := w32 ((x >>> n) ||| (x <<< (32 - n)))

def bsig0 (x : Nat) : Nat := rotr 2 x ^^^ rotr 13 x ^^^ rotr 22 x
def bsig1 (x : Nat) : Nat := rotr 6 x ^^^ rotr 11 x ^^^ rotr 25 x
def ssig0 (x : Nat) : Nat := rotr 7 x ^^^ rotr 18 x ^^^ (x >>> 3)
def ssig1 (x : Nat) : Nat := rotr 17 x ^^^ rotr 19 x ^^^ (x >>> 10)
def chf (x y z : Nat) : Nat := (x &&& y) ^^^ ((x ^^^ 4294967295) &&& z)
def majf (x y z : Nat) : Nat := (x &&& y) ^^^ (x &&& z) ^^^ (y &&& z)

/-- The eight 32-bit words of SHA-256 working state. -/
structure Sha256State where
  a : Nat
  b : Nat
  c : Nat
  d : Nat
  e : Nat
  f : Nat
  g : Nat
  h : Nat

/-- Initial hash state (FIPS 180-4 section 5.3.3, written in decimal). -/
def sha256H0 : Sha256State :=
  ⟨1779033703, 3144134277, 1013904242, 2773480762,
   1359893119, 2600822924, 528734635, 1541459225⟩

/-- Round constants (FIPS 180-4 section 4.2.2, written in decimal). -/
def sha256K : List Nat :=
  [1116352408, 1899447441, 3049323471, 3921009573, 961987163, 1508970993,
   2453635748, 2870763221, 3624381080, 310598401, 607225278, 1426881987,
   1925078388, 2162078206, 2614888103, 3248222580, 3835390401, 4022224774,
   264347078, 604807628, 770255983, 1249150122, 1555081692, 1996064986,
   2554220882, 2821834349, 2952996808, 3210313671, 3336571891, 3584528711,
   113926993, 338241895, 666307205, 773529912, 1294757372, 1396182291,
   1695183700, 1986661051, 2177026350, 2456956037, 2730485921, 2820302411,
   3259730800, 3345764771, 3516065817, 3600352804, 4094571909, 275423344,
   430227734, 506948616, 659060556, 883997877, 958139571, 1322822218,
   1537002063, 1747873779, 1955562222, 2024104815, 2227730452, 2361852424,
   2428436474, 2756734187, 3204031479, 3329325298]

/-- One SHA-256 round: the round constant and schedule word arrive pre-added. -/
def sha256Round (st : Sha256State) (kw : Nat) : Sha256State :=
  let t1 := w32 (st.h + bsig1 st.e + chf st.e st.f st.g + kw)
  let t2 := w32 (bsig0 st.a + majf st.a st.b st.c)
  ⟨w32 (t1 + t2), st.a, st.b, st.c, w32 (st.d + t1), st.e, st.f, st.g⟩

/-- Next message-schedule word from the sliding window of the previous 16. -/
def schedNext (win : List Nat) : Nat :=
  match win with
  | w0 :: w1 :: _ :: _ :: _ :: _ :: _ :: _ :: _ :: w9 :: _ :: _ :: _ :: _ :: w14 :: _ =>
    w32 (ssig1 w14 + w9 + ssig0 w1 + w0)
  | _ => 0

/-- Generate `n` further schedule words from a 16-word window. -/
def schedExtend : Nat → List Nat → List Nat
  | 0, _ => []
  | n + 1, win =>
    let nx := schedNext win
    nx :: schedExtend n (win.tail ++ [nx])

/-- Group bytes into big-endian 32-bit words. -/
def bytesToWordsBE : Bytes → List Nat
  | b0 :: b1 :: b2 :: b3 :: rest => (((b0 * 256 + b1) * 256 + b2) * 256 + b3) :: bytesToWordsBE rest
  | _ => []

/-- Compress one 64-byte block into the state. -/
def sha256Compress (st : Sha256State) (block : Bytes) : Sha256State :=
  let m := bytesToWordsBE block
  let ws := m ++ schedExtend 48 m
  let fin := List.foldl sha256Round st (List.zipWith (fun k w => w32 (k + w)) sha256K ws)
  ⟨w32 (st.a + fin.a), w32 (st.b + fin.b), w32 (st.c + fin.c), w32 (st.d + fin.d),
   w32 (st.e + fin.e), w32 (st.f + fin.f), w32 (st.g + fin.g), w32 (st.h + fin.h)⟩

/-- Merkle–Damgård padding: `0x80`, zeros to 56 mod 64, 8-byte big-endian bit length. -/
def sha256Pad (msg : Bytes) : Bytes :=
  msg ++ 128 :: (List.replicate ((119 - msg.length % 64) % 64) 0 ++ toBE 8 (msg.length * 8))

/-- Fuel-driven split into 64-byte blocks (fuel bounds the number of blocks). -/
def chunk64 : Nat → Bytes → List Bytes
  | 0, _ => []
  | _ + 1, [] => []
  | n + 1, x :: l => (x :: l).take 64 :: chunk64 n ((x :: l).drop 64)

/-- Big-endian serialization of the final state. -/
def sha256Digest (st : Sha256State) : Bytes :=
  toBE 4 st.a ++ toBE 4 st.b ++ toBE 4 st.c ++ toBE 4 st.d ++
  toBE 4 st.e ++ toBE 4 st.f ++ toBE 4 st.g ++ toBE 4 st.h

/-- SHA-256 of a byte string. -/
def sha256 (msg : Bytes) : Bytes :=
  let p := sha256Pad msg
  sha256Digest (List.foldl sha256Compress sha256H0 (chunk64 p.length p))

/-- HMAC-SHA-256 (RFC 2104) with a 64-byte block size. -/
def hmacSha256 (key msg : Bytes) : Bytes :=
  let k0 : Bytes :=
    if 64 < key.length then sha256 key ++ List.replicate 32 0
    else key ++ List.replicate (64 - key.length) 0
  sha256 ((k0.map (fun b => b ^^^ 92)) ++ sha256 ((k0.map (fun b => b ^^^ 54)) ++ msg))

@[simp] theorem sha256Digest_length (st : Sha256State) : (sha256Digest st).length = 32 := by
  simp [sha256Digest]

@[simp] theorem sha256_length (msg : Bytes) : (sha256 msg).length = 32 := by
  simp [sha256]

@[simp] theorem hmacSha256_length (key msg : Bytes) : (hmacSha256 key msg).length = 32 := by
  simp [hmacSha256]

theorem sha256Digest_lt (st : Sha256State) : ∀ b ∈ sha256Digest st, b < 256 := by
  intro b hb
  simp only [sha256Digest, List.mem_append] at hb
  rcases hb with ((((((h | h) | h) | h) | h) | h) | h) | h <;> exact toBE_lt _ _ _ h

theorem sha256_lt (msg : Bytes) : ∀ b ∈ sha256 msg, b < 256 := by
  intro b hb
  exact sha256Digest_lt _ b hb

theorem hmacSha256_lt (key msg : Bytes) : ∀ b ∈ hmacSha256 key msg, b < 256 := by
  intro b hb
  exact sha256_lt _ b hb

/-! ## Error surface (spec §7; the source throws flow `Error` values) -/

inductive Err where
  | KeyNotFound
  | UpdateCipher
  | HeaderMalformed
  | KeyMismatch
  | AuthTokenMismatch
  | CryptoBackend
  | BadKey
deriving DecidableEq

deriving instance DecidableEq for Except

/-! ## The encryption header (`BlobCipherEncryptHeader`, BlobCipher.h lines 87-157) -/

/-- Auth-token modes, `EncryptAuthTokenMode` (declared in flow/EncryptUtils.h, not under src/;
spec §3 fixes NONE=0, SINGLE=1, MULTI=2). -/
inductive EncryptAuthTokenMode where
  | NONE
  | SINGLE
  | MULTI
deriving DecidableEq

def EncryptAuthTokenMode.toByte : EncryptAuthTokenMode → Nat
  | .NONE => 0
  | .SINGLE => 1
  | .MULTI => 2

def EncryptAuthTokenMode.ofByte : Nat → Option EncryptAuthTokenMode
  | 0 => some .NONE
  | 1 => some .SINGLE
  | 2 => some .MULTI
  | _ => none

/-- Field block `cipherTextDetails` of the header (BlobCipher.h lines 102-112). -/
structure CipherTextDetails where
  encryptDomainId : Int
  baseCipherId : Nat
  salt : Nat
  iv : Bytes
deriving DecidableEq

/-- Field block `cipherHeaderDetails` of the header (BlobCipher.h lines 114-121). -/
structure CipherHeaderDetails where
  encryptDomainId : Int
  baseCipherId : Nat
  salt : Nat
deriving DecidableEq

/-- The header struct `BlobCipherEncryptHeader`.  The two 16-byte slots of the token union are
kept under their MULTI-mode names (`cipherTextAuthToken` at offset 72,
`headerAuthToken` at offset 88); in SINGLE mode the first slot holds the single
token and the second is the reserved zero region, exactly as the C union
overlays `singleAuthToken.authToken`/`_reserved` on them. -/
structure BlobCipherEncryptHeader where
  size : Nat
  headerVersion : Nat
  encryptMode : Nat
  authTokenMode : EncryptAuthTokenMode
  cipherTextDetails : CipherTextDetails
  cipherHeaderDetails : CipherHeaderDetails
  cipherTextAuthToken : Bytes
  headerAuthToken : Bytes
deriving DecidableEq

/-- Two's-complement 8-byte little-endian encoding of an `i64`. -/
def encInt64LE (x : Int) : Bytes := toLE 8 (x % 18446744073709551616).toNat

/-- Two's-complement 8-byte little-endian decoding. -/
def decInt64LE (b : Bytes) : Int :=
  if decLE b < 9223372036854775808 then (decLE b : Int)
  else (decLE b : Int) - 18446744073709551616

@[simp] theorem encInt64LE_length (x : Int) : (encInt64LE x).length = 8 := by
  simp [encInt64LE]

theorem decInt64LE_encInt64LE {x : Int} (h1 : -9223372036854775808 ≤ x)
    (h2 : x < 9223372036854775808) : decInt64LE (encInt64LE x) = x := by
  have h256 : (256 : Nat) ^ 8 = 18446744073709551616 := by norm_num
  simp only [decInt64LE, encInt64LE, decLE_toLE, h256]
  split <;> omega

/-- Well-formedness of a header value: the field-width constraints the packed C
struct imposes, together with the constant flags the spec's data model fixes
(`size` always 104, `header_version` 1, `encrypt_mode` 1). -/
def WFHeader (h : BlobCipherEncryptHeader) : Prop :=
  h.size = 104 ∧ h.headerVersion = 1 ∧ h.encryptMode = 1 ∧
  -9223372036854775808 ≤ h.cipherTextDetails.encryptDomainId ∧
  h.cipherTextDetails.encryptDomainId < 9223372036854775808 ∧
  h.cipherTextDetails.baseCipherId < 18446744073709551616 ∧
  h.cipherTextDetails.salt < 18446744073709551616 ∧
  h.cipherTextDetails.iv.length = 16 ∧ (∀ b ∈ h.cipherTextDetails.iv, b < 256) ∧
  -9223372036854775808 ≤ h.cipherHeaderDetails.encryptDomainId ∧
  h.cipherHeaderDetails.encryptDomainId < 9223372036854775808 ∧
  h.cipherHeaderDetails.baseCipherId < 18446744073709551616 ∧
  h.cipherHeaderDetails.salt < 18446744073709551616 ∧
  h.cipherTextAuthToken.length = 16 ∧ (∀ b ∈ h.cipherTextAuthToken, b < 256) ∧
  h.headerAuthToken.length = 16 ∧ (∀ b ∈ h.headerAuthToken, b < 256)

instance (h : BlobCipherEncryptHeader) : Decidable (WFHeader h) := by
  unfold WFHeader
  infer_instance

/-- Modelled from the spec: `pack` of the HeaderCodec (§4.6); the body of the
codec is not under src/, but the packed C struct in BlobCipher.h lines 87-153
fixes exactly these offsets (the spec's §3 table repeats them). -/
def pack (h : BlobCipherEncryptHeader) : Bytes :=
  [h.size % 256, h.headerVersion % 256, h.encryptMode % 256, h.authTokenMode.toByte] ++
  (List.replicate 4 0 ++
  (encInt64LE h.cipherTextDetails.encryptDomainId ++
  (toLE 8 h.cipherTextDetails.baseCipherId ++
  (toLE 8 h.cipherTextDetails.salt ++
  (h.cipherTextDetails.iv ++
  (encInt64LE h.cipherHeaderDetails.encryptDomainId ++
  (toLE 8 h.cipherHeaderDetails.baseCipherId ++
  (toLE 8 h.cipherHeaderDetails.salt ++
  (h.cipherTextAuthToken ++
  h.headerAuthToken)))))))))

/-- Slice of `n` bytes of `l` starting at offset `off`. -/
def slice (l : Bytes) (off n : Nat) : Bytes := (l.drop off).take n

/-- Modelled from the spec: `unpack` of the HeaderCodec (§4.6): validate
`size == 104`, `header_version == 1`, `encrypt_mode == 1`,
`auth_token_mode ∈ {0,1,2}`, fail `HeaderMalformed` otherwise; reserved bytes
are ignored on read. -/
def unpack (b : Bytes) : Except Err BlobCipherEncryptHeader :=
  if b.length = 104 ∧ b.getD 0 0 = 104 ∧ b.getD 1 0 = 1 ∧ b.getD 2 0 = 1 then
    match EncryptAuthTokenMode.ofByte (b.getD 3 0) with
    | none => .error .HeaderMalformed
    | some m =>
      .ok { size := b.getD 0 0
            headerVersion := b.getD 1 0
            encryptMode := b.getD 2 0
            authTokenMode := m
            cipherTextDetails :=
              { encryptDomainId := decInt64LE (slice b 8 8)
                baseCipherId := decLE (slice b 16 8)
                salt := decLE (slice b 24 8)
                iv := slice b 32 16 }
            cipherHeaderDetails :=
              { encryptDomainId := decInt64LE (slice b 48 8)
                baseCipherId := decLE (slice b 56 8)
                salt := decLE (slice b 64 8) }
            cipherTextAuthToken := slice b 72 16
            headerAuthToken := slice b 88 16 }
  else .error .HeaderMalformed

theorem drop_append_of_le {α : Type} (l1 l2 : List α) :
    ∀ n, l1.length ≤ n → (l1 ++ l2).drop n = l2.drop (n - l1.length) := by
  induction l1 with
  | nil => intro n _; simp
  | cons x xs ih =>
    intro n hn
    cases n with
    | zero => simp at hn
    | succ k =>
      simp only [List.cons_append, List.drop_succ_cons]
      have := ih k (by simpa using hn)
      simpa [Nat.succ_sub_succ] using this

theorem drop_append_len {α : Type} {l1 l2 : List α} {n : Nat} (h : l1.length = n) :
    (l1 ++ l2).drop n = l2 := by
  subst h
  rw [drop_append_of_le l1 l2 l1.length (le_refl _)]
  simp

theorem take_append_len {α : Type} {l1 l2 : List α} {n : Nat} (h : l1.length = n) :
    (l1 ++ l2).take n = l1 := by
  subst h
  exact List.take_left l1 l2

theorem slice_append {l1 l2 : List Nat} {off n : Nat} (hoff : l1.length ≤ off) :
    slice (l1 ++ l2) off n = slice l2 (off - l1.length) n := by
  simp [slice, drop_append_of_le l1 l2 off hoff]

theorem slice_zero {l1 l2 : List Nat} {n : Nat} (hn : l1.length = n) :
    slice (l1 ++ l2) 0 n = l1 := by
  simp [slice, take_append_len hn]

theorem slice_cons {x : Nat} {l : List Nat} {off n : Nat} (h : 0 < off) :
    slice (x :: l) off n = slice l (off - 1) n := by
  cases off with
  | zero => omega
  | succ k => simp [slice]

theorem getD_cons_pos {x d : Nat} {l : List Nat} {n : Nat} (h : 0 < n) :
    (x :: l).getD n d = l.getD (n - 1) d := by
  cases n with
  | zero => omega
  | succ k => simp

theorem ofByte_toByte (m : EncryptAuthTokenMode) :
    EncryptAuthTokenMode.ofByte m.toByte = some m := by
  cases m <;> rfl

theorem toByte_lt (m : EncryptAuthTokenMode) : m.toByte < 256 := by
  cases m <;> simp [EncryptAuthTokenMode.toByte]

@[simp] theorem pack_length {h : BlobCipherEncryptHeader} (hwf : WFHeader h) :
    (pack h).length = 104 := by
  obtain ⟨_, _, _, _, _, _, _, hiv, _, _, _, _, _, htA, _, htB, _⟩ := hwf
  simp [pack, hiv, htA, htB]

theorem pack_getD_0 (h : BlobCipherEncryptHeader) : (pack h).getD 0 0 = h.size % 256 := by
  simp [pack]

theorem pack_getD_1 (h : BlobCipherEncryptHeader) : (pack h).getD 1 0 = h.headerVersion % 256 := by
  simp [pack, getD_cons_pos]

theorem pack_getD_2 (h : BlobCipherEncryptHeader) : (pack h).getD 2 0 = h.encryptMode % 256 := by
  simp [pack, getD_cons_pos]

theorem pack_getD_3 (h : BlobCipherEncryptHeader) : (pack h).getD 3 0 = h.authTokenMode.toByte := by
  simp [pack, getD_cons_pos]

theorem slice_pack_8 (h : BlobCipherEncryptHeader) :
    slice (pack h) 8 8 = encInt64LE h.cipherTextDetails.encryptDomainId := by
  simp [pack, slice_cons, slice_append, slice_zero]

theorem slice_pack_16 (h : BlobCipherEncryptHeader) :
    slice (pack h) 16 8 = toLE 8 h.cipherTextDetails.baseCipherId := by
  simp [pack, slice_cons, slice_append, slice_zero]

theorem slice_pack_24 (h : BlobCipherEncryptHeader) :
    slice (pack h) 24 8 = toLE 8 h.cipherTextDetails.salt := by
  simp [pack, slice_cons, slice_append, slice_zero]

theorem slice_pack_32 (h : BlobCipherEncryptHeader)
    (hiv : h.cipherTextDetails.iv.length = 16) :
    slice (pack h) 32 16 = h.cipherTextDetails.iv := by
  simp [pack, slice_cons, slice_append, slice_zero, hiv]

theorem slice_pack_48 (h : BlobCipherEncryptHeader)
    (hiv : h.cipherTextDetails.iv.length = 16) :
    slice (pack h) 48 8 = encInt64LE h.cipherHeaderDetails.encryptDomainId := by
  simp [pack, slice_cons, slice_append, slice_zero, hiv]

theorem slice_pack_56 (h : BlobCipherEncryptHeader)
    (hiv : h.cipherTextDetails.iv.length = 16) :
    slice (pack h) 56 8 = toLE 8 h.cipherHeaderDetails.baseCipherId := by
  simp [pack, slice_cons, slice_append, slice_zero, hiv]

theorem slice_pack_64 (h : BlobCipherEncryptHeader)
    (hiv : h.cipherTextDetails.iv.length = 16) :
    slice (pack h) 64 8 = toLE 8 h.cipherHeaderDetails.salt := by
  simp [pack, slice_cons, slice_append, slice_zero, hiv]

theorem slice_pack_72 (h : BlobCipherEncryptHeader)
    (hiv : h.cipherTextDetails.iv.length = 16)
    (htA : h.cipherTextAuthToken.length = 16) :
    slice (pack h) 72 16 = h.cipherTextAuthToken := by
  simp [pack, slice_cons, slice_append, slice_zero, hiv, htA]

theorem slice_pack_88 (h : BlobCipherEncryptHeader)
    (hiv : h.cipherTextDetails.iv.length = 16)
    (htA : h.cipherTextAuthToken.length = 16)
    (htB : h.headerAuthToken.length = 16) :
    slice (pack h) 88 16 = h.headerAuthToken := by
  have hall : slice h.headerAuthToken 0 16 = h.headerAuthToken := by
    simp [slice, List.take_of_length_le, htB]
  simp [pack, slice_cons, slice_append, slice_zero, hiv, htA, htB, hall]

/-- Round-trip of the header codec: `unpack (pack h) = ok h` for every
well-formed header. -/
theorem unpack_pack (h : BlobCipherEncryptHeader) (hwf : WFHeader h) :
    unpack (pack h) = .ok h := by
  obtain ⟨hs, hv, he, hd1l, hd1u, hb1, hs1, hivl, _, hd2l, hd2u, hb2, hs2, htAl, _, htBl, _⟩ := hwf
  have hlen : (pack h).length = 104 := pack_length (by
    exact ⟨hs, hv, he, hd1l, hd1u, hb1, hs1, hivl, by assumption, hd2l, hd2u, hb2, hs2, htAl,
      by assumption, htBl, by assumption⟩)
  have hg0 : (pack h).getD 0 0 = 104 := by rw [pack_getD_0, hs]
  have hg1 : (pack h).getD 1 0 = 1 := by rw [pack_getD_1, hv]
  have hg2 : (pack h).getD 2 0 = 1 := by rw [pack_getD_2, he]
  have h64 : (9223372036854775808 : Nat) ≤ 18446744073709551616 := by norm_num
  rw [unpack, if_pos ⟨hlen, hg0, hg1, hg2⟩, pack_getD_3, ofByte_toByte]
  have e8 := slice_pack_8 h
  have e16 := slice_pack_16 h
  have e24 := slice_pack_24 h
  have e32 := slice_pack_32 h hivl
  have e48 := slice_pack_48 h hivl
  have e56 := slice_pack_56 h hivl
  have e64 := slice_pack_64 h hivl
  have e72 := slice_pack_72 h hivl htAl
  have e88 := slice_pack_88 h hivl htAl htBl
  rw [e8, e16, e24, e32, e48, e56, e64, e72, e88]
  rw [decInt64LE_encInt64LE hd1l hd1u, decInt64LE_encInt64LE hd2l hd2u]
  rw [decLE_toLE_of_lt (by norm_num [hb1]), decLE_toLE_of_lt (by norm_num [hs1]),
    decLE_toLE_of_lt (by norm_num [hb2]), decLE_toLE_of_lt (by norm_num [hs2])]
  cases h with
  | mk s v e m td hd tA tB =>
    cases td with
    | mk d1 b1 s1 iv =>
      cases hd with
      | mk d2 b2 s2 =>
        simp_all

/-! ## Key derivation and `BlobCipherKey` (BlobCipher.h lines 159-211) -/

/-- Modelled from the spec: `BlobCipherKey::applyHmacSha256Derivation` is only
declared in BlobCipher.h; §4.2 fixes it as HMAC-SHA-256 keyed with the base
cipher over `salt (8 LE) ‖ domain_id (8 LE, two's-complement)`. -/
def applyHmacSha256Derivation (baseCipher : Bytes) (domainId : Int) (salt : Nat) : Bytes :=
  hmacSha256 baseCipher (toLE 8 salt ++ encInt64LE domainId)

@[simp] theorem applyHmacSha256Derivation_length (baseCipher : Bytes) (domainId : Int)
    (salt : Nat) : (applyHmacSha256Derivation baseCipher domainId salt).length = 32 := by
  simp [applyHmacSha256Derivation]

/-- In-memory cipher key: identity triple, base key bytes and the derived
32-byte AES working key (`cipher`). -/
structure BlobCipherKey where
  encryptDomainId : Int
  baseCipherId : Nat
  baseCipher : Bytes
  randomSalt : Nat
  cipher : Bytes
deriving DecidableEq

/-- Modelled from the spec: `BlobCipherKey::initKey` (declared only): store the
identity fields and derive the working key. -/
def BlobCipherKey.initKey (domainId : Int) (baseCipherId : Nat) (baseCipher : Bytes)
    (salt : Nat) : BlobCipherKey :=
  { encryptDomainId := domainId
    baseCipherId := baseCipherId
    baseCipher := baseCipher
    randomSalt := salt
    cipher := applyHmacSha256Derivation baseCipher domainId salt }

/-! ## The per-domain key-id cache (`BlobCipherKeyIdCache`, BlobCipher.h lines 243-298) -/

/-- The `{baseCipherId, salt}` pair indexing a cipher key inside a domain. -/
abbrev BlobCipherKeyIdCacheKey := Nat × Nat

/-- The per-domain cache: map from `(baseCipherId, salt)` to immutable keys
(modelled as an association list, newest first) plus the latest pointer
(`latestBaseCipherKeyId`/`latestRandomSalt`, modelled as an `Option` which is
`none` until the first latest-path insertion). -/
structure BlobCipherKeyIdCache where
  domainId : Int
  keyIdCache : List (BlobCipherKeyIdCacheKey × BlobCipherKey)
  latest : Option BlobCipherKeyIdCacheKey
deriving DecidableEq

def BlobCipherKeyIdCache.init (dId : Int) : BlobCipherKeyIdCache :=
  { domainId := dId, keyIdCache := [], latest := none }

def keyIdLookup (c : BlobCipherKeyIdCache) (k : BlobCipherKeyIdCacheKey) :
    Option BlobCipherKey :=
  (c.keyIdCache.find? (fun p => decide (p.1 = k))).map (fun p => p.2)

/-- Modelled from the spec: `getLatestCipherKey` — fails `KeyNotFound` when no
latest-path insertion has happened for the domain. -/
def getLatestCipherKey (c : BlobCipherKeyIdCache) : Except Err BlobCipherKey :=
  match c.latest with
  | none => .error .KeyNotFound
  | some k =>
    match keyIdLookup c k with
    | none => .error .KeyNotFound
    | some key => .ok key

/-- Modelled from the spec: `getCipherByBaseCipherId` — exact lookup by
`(baseCipherId, salt)`, failing `KeyNotFound` when absent. -/
def getCipherByBaseCipherId (c : BlobCipherKeyIdCache) (baseCipherId salt : Nat) :
    Except Err BlobCipherKey :=
  match keyIdLookup c (baseCipherId, salt) with
  | none => .error .KeyNotFound
  | some key => .ok key

/-- Modelled from the spec: the salt-supplying overload of
`insertBaseCipherKey` (spec `insert_exact`): inserts at the caller-supplied
salt, does NOT update the latest pointer; re-inserting byte-identical base
cipher bytes is a no-op, differing bytes fail `UpdateCipher`. -/
def insertBaseCipherKeyExact (c : BlobCipherKeyIdCache) (baseCipherId : Nat)
    (baseCipher : Bytes) (salt : Nat) : Except Err BlobCipherKeyIdCache :=
  match keyIdLookup c (baseCipherId, salt) with
  | some existing =>
    if existing.baseCipher = baseCipher then .ok c else .error .UpdateCipher
  | none =>
    .ok { c with
      keyIdCache :=
        ((baseCipherId, salt), BlobCipherKey.initKey c.domainId baseCipherId baseCipher salt)
          :: c.keyIdCache }

/-- Modelled from the spec: the latest-path overload of `insertBaseCipherKey`
(spec `insert_latest`); the salt the CSPRNG would generate is passed
explicitly.  Same idempotence/conflict semantics, and on a fresh insertion the
latest pointer is set to the new key. -/
def insertBaseCipherKeyLatest (c : BlobCipherKeyIdCache) (baseCipherId : Nat)
    (baseCipher : Bytes) (salt : Nat) : Except Err BlobCipherKeyIdCache :=
  match keyIdLookup c (baseCipherId, salt) with
  | some existing =>
    if existing.baseCipher = baseCipher then .ok c else .error .UpdateCipher
  | none =>
    .ok { c with
      keyIdCache :=
        ((baseCipherId, salt), BlobCipherKey.initKey c.domainId baseCipherId baseCipher salt)
          :: c.keyIdCache
      latest := some (baseCipherId, salt) }

/-! ## AES-256-CTR engine (`EncryptBlobCipherAes265Ctr` / `DecryptBlobCipherAes256Ctr`) -/

/-- Modelled from the spec: the CTR keystream.  `aes` is the crypto provider's
AES-256 block permutation (spec §9 makes the provider replaceable); the
16-byte IV is the big-endian initial counter value, incremented mod `2^128`
per block. -/
def ctrKeystream (aes : Bytes → Bytes → Bytes) (key iv : Bytes) (n : Nat) : Bytes :=
  (((List.range ((n + 15) / 16)).map
    (fun i => aes key (toBE 16 ((decBE iv + i) % 340282366920938463463374607431768211456)))).flatten).take n

/-- Modelled from the spec: AES-256-CTR one-shot; encryption and decryption are
the same XOR with the keystream, hence length-preserving. -/
def aes256CtrXcrypt (aes : Bytes → Bytes → Bytes) (key iv data : Bytes) : Bytes :=
  List.zipWith (fun a b => a ^^^ b) data (ctrKeystream aes key iv data.length)

theorem ctrKeystream_length (aes : Bytes → Bytes → Bytes) (key iv : Bytes) (n : Nat)
    (haes : ∀ k b, (aes k b).length = 16) : (ctrKeystream aes key iv n).length = n := by
  have hmap : ∀ l : List Nat, ((l.map
      (fun i => aes key (toBE 16 ((decBE iv + i) % 340282366920938463463374607431768211456)))).map
        List.length).sum = 16 * l.length := by
    intro l
    induction l with
    | nil => simp
    | cons x xs ih =>
      simp only [List.map_cons, List.sum_cons, haes, ih, List.length_cons]
      ring
  simp only [ctrKeystream, List.length_take, List.length_flatten]
  rw [hmap (List.range ((n + 15) / 16))]
  simp only [List.length_range]
  omega

@[simp] theorem aes256CtrXcrypt_length (aes : Bytes → Bytes → Bytes) (key iv data : Bytes)
    (haes : ∀ k b, (aes k b).length = 16) :
    (aes256CtrXcrypt aes key iv data).length = data.length := by
  simp [aes256CtrXcrypt, ctrKeystream_length aes key iv data.length haes]

theorem zipWith_xor_cancel : ∀ (l ks : List Nat), l.length ≤ ks.length →
    List.zipWith (fun a b => a ^^^ b) (List.zipWith (fun a b => a ^^^ b) l ks) ks = l := by
  intro l
  induction l with
  | nil => intro ks _; simp
  | cons x xs ih =>
    intro ks hks
    cases ks with
    | nil => simp at hks
    | cons y ys =>
      simp only [List.zipWith_cons_cons, List.cons.injEq]
      refine ⟨?_, ih ys (by simpa using hks)⟩
      rw [Nat.xor_assoc, Nat.xor_self, Nat.xor_zero]

/-- CTR decryption inverts CTR encryption (same key, same IV). -/
theorem aes256CtrXcrypt_involution (aes : Bytes → Bytes → Bytes) (key iv data : Bytes)
    (haes : ∀ k b, (aes k b).length = 16) :
    aes256CtrXcrypt aes key iv (aes256CtrXcrypt aes key iv data) = data := by
  have hlen : (aes256CtrXcrypt aes key iv data).length = data.length :=
    aes256CtrXcrypt_length aes key iv data haes
  unfold aes256CtrXcrypt at hlen ⊢
  rw [hlen]
  exact zipWith_xor_cancel data _
    (le_of_eq (ctrKeystream_length aes key iv data.length haes).symm)

/-- Function `computeAuthToken` (BlobCipher.h lines 463-467): 16-byte truncated
HMAC-SHA-256 of the payload under the given key (AUTH_TOKEN_SIZE = 16). -/
def computeAuthToken (payload key : Bytes) : Bytes :=
  (hmacSha256 key payload).take 16

@[simp] theorem computeAuthToken_length (payload key : Bytes) :
    (computeAuthToken payload key).length = 16 := by
  simp [computeAuthToken]

theorem computeAuthToken_lt (payload key : Bytes) : ∀ b ∈ computeAuthToken payload key, b < 256 := by
  intro b hb
  exact hmacSha256_lt _ _ b (List.mem_of_mem_take hb)

/-- Modelled from the spec: `EncryptBlobCipherAes265Ctr::encrypt` (§4.7):
CTR-encrypt the plaintext with the text key and the supplied IV, populate the
header from the two keys, then emit the auth token(s) for the requested mode.
Returns the ciphertext buffer and the populated header. -/
def encrypt (aes : Bytes → Bytes → Bytes) (textCipherKey headerCipherKey : BlobCipherKey)
    (iv : Bytes) (authTokenMode : EncryptAuthTokenMode) (plaintext : Bytes) :
    Bytes × BlobCipherEncryptHeader :=
  let ciphertext := aes256CtrXcrypt aes textCipherKey.cipher iv plaintext
  let hdr0 : BlobCipherEncryptHeader :=
    { size := 104
      headerVersion := 1
      encryptMode := 1
      authTokenMode := authTokenMode
      cipherTextDetails :=
        { encryptDomainId := textCipherKey.encryptDomainId
          baseCipherId := textCipherKey.baseCipherId
          salt := textCipherKey.randomSalt
          iv := iv }
      cipherHeaderDetails :=
        { encryptDomainId := headerCipherKey.encryptDomainId
          baseCipherId := headerCipherKey.baseCipherId
          salt := headerCipherKey.randomSalt }
      cipherTextAuthToken := List.replicate 16 0
      headerAuthToken := List.replicate 16 0 }
  match authTokenMode with
  | .NONE => (ciphertext, hdr0)
  | .SINGLE =>
    (ciphertext,
      { hdr0 with
        cipherTextAuthToken :=
          computeAuthToken (ciphertext ++ pack hdr0) headerCipherKey.cipher })
  | .MULTI =>
    let textToken := computeAuthToken ciphertext headerCipherKey.cipher
    let hdr1 := { hdr0 with cipherTextAuthToken := textToken }
    (ciphertext,
      { hdr1 with headerAuthToken := computeAuthToken (pack hdr1) headerCipherKey.cipher })

/-- Modelled from the spec: `DecryptBlobCipherAes256Ctr::verifyHeaderAuthToken`
(§4.8): in MULTI mode only, recompute the header token over the packed header
with the header-token slot zeroed and compare to the stored 16 bytes; no-op in
SINGLE/NONE. -/
def verifyHeaderAuthToken (headerCipherKey : BlobCipherKey)
    (header : BlobCipherEncryptHeader) : Except Err Unit :=
  match header.authTokenMode with
  | .MULTI =>
    if computeAuthToken (pack { header with headerAuthToken := List.replicate 16 0 })
        headerCipherKey.cipher = header.headerAuthToken
    then .ok () else .error .AuthTokenMismatch
  | _ => .ok ()

/-- The mode-specific payload auth-token check of `decrypt` (spec §4.8 steps
2-4): SINGLE recomputes the combined token over `ciphertext ‖ header` with the
single slot zeroed, MULTI recomputes the text token over the ciphertext alone,
NONE verifies nothing. -/
def payloadAuthTokenOk (headerCipherKey : BlobCipherKey) (ciphertext : Bytes)
    (header : BlobCipherEncryptHeader) : Bool :=
  match header.authTokenMode with
  | .NONE => true
  | .SINGLE =>
    decide (computeAuthToken
      (ciphertext ++ pack { header with cipherTextAuthToken := List.replicate 16 0 })
      headerCipherKey.cipher = header.cipherTextAuthToken)
  | .MULTI =>
    decide (computeAuthToken ciphertext headerCipherKey.cipher = header.cipherTextAuthToken)

/-- Modelled from the spec: `DecryptBlobCipherAes256Ctr::decrypt` (§4.8), in
the order the spec numbers the steps: header token verification, payload token
verification, the constructor-IV-equals-header-IV check (`HeaderMalformed` on
mismatch), key identity validation (`KeyMismatch`), then AES-256-CTR with the
IV taken from the header. -/
def decrypt (aes : Bytes → Bytes → Bytes) (textCipherKey headerCipherKey : BlobCipherKey)
    (iv : Bytes) (ciphertext : Bytes) (header : BlobCipherEncryptHeader) :
    Except Err Bytes :=
  match verifyHeaderAuthToken headerCipherKey header with
  | .error e => .error e
  | .ok _ =>
    if payloadAuthTokenOk headerCipherKey ciphertext header then
      if iv = header.cipherTextDetails.iv then
        if textCipherKey.encryptDomainId = header.cipherTextDetails.encryptDomainId ∧
           textCipherKey.baseCipherId = header.cipherTextDetails.baseCipherId ∧
           textCipherKey.randomSalt = header.cipherTextDetails.salt ∧
           headerCipherKey.encryptDomainId = header.cipherHeaderDetails.encryptDomainId ∧
           headerCipherKey.baseCipherId = header.cipherHeaderDetails.baseCipherId ∧
           headerCipherKey.randomSalt = header.cipherHeaderDetails.salt then
          .ok (aes256CtrXcrypt aes textCipherKey.cipher header.cipherTextDetails.iv ciphertext)
        else .error .KeyMismatch
      else .error .HeaderMalformed
    else .error .AuthTokenMismatch

/-! ## ECDSA auth-token signing (fdbrpc/TokenSign.cpp, embedded from the source) -/

/-- Record `AuthTokenRef` (declared in fdbrpc/TokenSign.h): `expiresAt` is a C++
`double` carried opaquely (modelled by its bit pattern; TokenSign.cpp never
computes with it, it only serializes it), `ipAddress` an optional v4/v6
address, `tenants` a list of byte strings. -/
structure AuthTokenRef where
  expiresAt : Nat
  ipAddress : Option Bytes
  tenants : List Bytes
deriving DecidableEq

/-- Record `SignedAuthTokenRef`: serialized token payload, signature, and the name of
the signing key. -/
structure SignedAuthTokenRef where
  token : Bytes
  signature : Bytes
  keyName : Bytes
deriving DecidableEq

/-- The OpenSSL EVP primitives TokenSign.cpp calls, as an abstract backend:
DER parsing of private/public keys (`d2i_AutoPrivateKey` / `d2i_PUBKEY`, with
`none` modelling a parse failure) and ECDSA-SHA256 one-shot digest signing and
verification. -/
structure EcdsaBackend (SK PK : Type) where
  d2iAutoPrivateKey : Bytes → Option SK
  d2iPUBKEY : Bytes → Option PK
  digestSign : SK → Bytes → Bytes
  digestVerify : PK → Bytes → Bytes → Bool

/-- Function `signToken` (TokenSign.cpp lines 115-146): serialize the token with the
version-including `ObjectWriter` (the flow serializer, passed as a function),
parse the private key DER — throwing (`BadKey`) on failure — sign the
serialized bytes, and assemble token bytes, signature and key name. -/
def signToken {SK PK : Type} (B : EcdsaBackend SK PK) (serialize : AuthTokenRef → Bytes)
    (token : AuthTokenRef) (keyName : Bytes) (privateKeyDer : Bytes) :
    Except Err SignedAuthTokenRef :=
  let tokenStr := serialize token
  match B.d2iAutoPrivateKey privateKeyDer with
  | none => .error .BadKey
  | some key =>
    .ok { token := tokenStr, signature := B.digestSign key tokenStr, keyName := keyName }

/-- Function `verifyToken` (TokenSign.cpp lines 148-175): parse the public key DER —
throwing (`BadKey`) on failure — then ECDSA-verify the stored `token` bytes
against the stored `signature`.  A verification mismatch is returned as
`false`, not an error; the `keyName` field is never consulted. -/
def verifyToken {SK PK : Type} (B : EcdsaBackend SK PK) (signedToken : SignedAuthTokenRef)
    (publicKeyDer : Bytes) : Except Err Bool :=
  match B.d2iPUBKEY publicKeyDer with
  | none => .error .BadKey
  | some key => .ok (B.digestVerify key signedToken.token signedToken.signature)

/-! ## Concrete instances used by witnesses and counterexamples -/

/-- A minimal AES-256 block permutation instance: every block maps to the zero
block (only its 16-byte output length matters to the CTR statements). -/
def constAes : Bytes → Bytes → Bytes := fun _ _ => List.replicate 16 0

theorem constAes_length : ∀ k b, (constAes k b).length = 16 := by
  intro k b
  simp [constAes]

/-- Flip bit `bitIdx` of the byte at `byteIdx`. -/
def flipBit (l : Bytes) (byteIdx bitIdx : Nat) : Bytes :=
  l.set byteIdx (l.getD byteIdx 0 ^^^ (1 <<< bitIdx))

/-- A well-formed sample header used by witnesses. -/
def sampleHeader : BlobCipherEncryptHeader :=
  { size := 104
    headerVersion := 1
    encryptMode := 1
    authTokenMode := .SINGLE
    cipherTextDetails :=
      { encryptDomainId := 42, baseCipherId := 7, salt := 9, iv := List.replicate 16 3 }
    cipherHeaderDetails := { encryptDomainId := -1, baseCipherId := 8, salt := 10 }
    cipherTextAuthToken := List.replicate 16 1
    headerAuthToken := List.replicate 16 0 }

/-! ## The claims -/

/-- C3: for every header value `h` (well-formed per the C struct's field widths
and the spec's data-model constants), `pack h` is exactly 104 bytes, its first
byte is the `size` field, and `unpack (pack h) = ok h`. -/
theorem C3_pack_unpack (h : BlobCipherEncryptHeader) (hwf : WFHeader h) :
    (pack h).length = 104 ∧ (pack h).getD 0 0 = h.size ∧ unpack (pack h) = .ok h := by
  refine ⟨pack_length hwf, ?_, unpack_pack h hwf⟩
  rw [pack_getD_0, hwf.1]

/-- Witness for C3 at a concrete header. -/
theorem C3_pack_unpack_witness :
    WFHeader sampleHeader ∧
    ((pack sampleHeader).length = 104 ∧ (pack sampleHeader).getD 0 0 = sampleHeader.size ∧
      unpack (pack sampleHeader) = .ok sampleHeader) :=
  ⟨by decide, C3_pack_unpack sampleHeader (by decide)⟩

/-- C10: `verifyToken` never reads `keyName` — two signed tokens agreeing on
the serialized payload and signature verify identically under any public key
and backend, so tampering with `keyName` alone cannot change the outcome. -/
theorem C10_verifyToken_ignores_keyName {SK PK : Type} (B : EcdsaBackend SK PK)
    (st1 st2 : SignedAuthTokenRef) (publicKeyDer : Bytes)
    (ht : st1.token = st2.token) (hs : st1.signature = st2.signature) :
    verifyToken B st1 publicKeyDer = verifyToken B st2 publicKeyDer := by
  cases hp : B.d2iPUBKEY publicKeyDer <;> simp [verifyToken, hp, ht, hs]

/-- The backend instance used by the TokenSign witnesses: signing returns the
message itself and verification compares signature bytes to the message. -/
def unitBackend : EcdsaBackend Unit Unit :=
  { d2iAutoPrivateKey := fun _ => some ()
    d2iPUBKEY := fun der => if der = [] then none else some ()
    digestSign := fun _ m => m
    digestVerify := fun _ m s => decide (m = s) }

/-- Witness for C10: same payload and signature, different key names. -/
theorem C10_verifyToken_ignores_keyName_witness :
    ({ token := [1, 2], signature := [1, 2], keyName := [5] } : SignedAuthTokenRef).token =
      ({ token := [1, 2], signature := [1, 2], keyName := [6] } : SignedAuthTokenRef).token ∧
    verifyToken unitBackend { token := [1, 2], signature := [1, 2], keyName := [5] } [9] =
      verifyToken unitBackend { token := [1, 2], signature := [1, 2], keyName := [6] } [9] :=
  ⟨rfl, C10_verifyToken_ignores_keyName unitBackend _ _ [9] rfl rfl⟩

/-- C9: with a correctly matched ECDSA keypair (the backend hypotheses state
exactly the signature-scheme contract for that pair), `verify (sign t)` is
`ok true`; replacing the signed token's payload with the serialization of a
tampered token yields `ok false` (not an error); and a public-key DER parse
failure fails with `BadKey`. -/
theorem C9_sign_verify {SK PK : Type} (B : EcdsaBackend SK PK)
    (serialize : AuthTokenRef → Bytes) (t t' : AuthTokenRef)
    (keyName privateKeyDer publicKeyDer : Bytes) (sk : SK) (pk : PK)
    (hsk : B.d2iAutoPrivateKey privateKeyDer = some sk)
    (hpk : B.d2iPUBKEY publicKeyDer = some pk)
    (hok : B.digestVerify pk (serialize t) (B.digestSign sk (serialize t)) = true)
    (hsound : ∀ m, m ≠ serialize t → B.digestVerify pk m (B.digestSign sk (serialize t)) = false)
    (hser : serialize t' ≠ serialize t) :
    (∀ st, signToken B serialize t keyName privateKeyDer = .ok st →
      verifyToken B st publicKeyDer = .ok true ∧
      verifyToken B { st with token := serialize t' } publicKeyDer = .ok false) ∧
    (∀ st' pub', B.d2iPUBKEY pub' = none → verifyToken B st' pub' = .error .BadKey) := by
  constructor
  · intro st hst
    simp only [signToken, hsk, Except.ok.injEq] at hst
    subst hst
    constructor
    · simp [verifyToken, hpk, hok]
    · simp [verifyToken, hpk, hsound (serialize t') hser]
  · intro st' pub' hp
    simp [verifyToken, hp]

/-- A serializer instance for the C9 witness (injective on the tokens used). -/
def c9Serialize : AuthTokenRef → Bytes := fun tok => [tok.tenants.length % 256]

/-- The token signed in the C9 witness. -/
def c9Token : AuthTokenRef := { expiresAt := 0, ipAddress := none, tenants := [] }

/-- The tampered token of the C9 witness (one tenant appended). -/
def c9TokenTampered : AuthTokenRef := { expiresAt := 0, ipAddress := none, tenants := [[116]] }

/-- Witness for C9 at the unit backend and concrete tokens. -/
theorem C9_sign_verify_witness :
    signToken unitBackend c9Serialize c9Token [107] [3] =
      .ok { token := [0], signature := [0], keyName := [107] } ∧
    verifyToken unitBackend { token := [0], signature := [0], keyName := [107] } [9] = .ok true ∧
    verifyToken unitBackend { token := [1], signature := [0], keyName := [107] } [9] = .ok false ∧
    verifyToken unitBackend { token := [0], signature := [0], keyName := [107] } [] =
      .error .BadKey := by
  have h := C9_sign_verify unitBackend c9Serialize c9Token c9TokenTampered [107] [3] [9] () ()
    rfl rfl (by decide)
    (fun m hm => by
      simp only [unitBackend, c9Serialize, c9Token] at hm ⊢
      exact decide_eq_false hm)
    (by decide)
  exact ⟨rfl, (h.1 _ rfl).1, (h.1 _ rfl).2, h.2 _ [] rfl⟩

/-- C1: for every text key, header key, IV, plaintext and auth-token mode,
decrypting the output of `encrypt` (ciphertext plus the populated header) with
the same keys and IV recovers the plaintext, and the ciphertext has exactly
the plaintext's length.  (`aes` is the provider's AES-256 block permutation;
the only fact used about it is its 16-byte block output.) -/
theorem C1_encrypt_decrypt_roundtrip (aes : Bytes → Bytes → Bytes)
    (haes : ∀ k b, (aes k b).length = 16)
    (textCipherKey headerCipherKey : BlobCipherKey) (iv : Bytes)
    (mode : EncryptAuthTokenMode) (plaintext : Bytes) :
    decrypt aes textCipherKey headerCipherKey iv
        (encrypt aes textCipherKey headerCipherKey iv mode plaintext).1
        (encrypt aes textCipherKey headerCipherKey iv mode plaintext).2 = .ok plaintext ∧
    (encrypt aes textCipherKey headerCipherKey iv mode plaintext).1.length =
      plaintext.length := by
  have hinv := aes256CtrXcrypt_involution aes textCipherKey.cipher iv plaintext haes
  have hlen := aes256CtrXcrypt_length aes textCipherKey.cipher iv plaintext haes
  cases mode <;>
    exact ⟨by simp [encrypt, decrypt, verifyHeaderAuthToken, payloadAuthTokenOk, hinv],
      by simp [encrypt, hlen]⟩

/-- A concrete text key for witnesses. -/
def sampleTextKey : BlobCipherKey := BlobCipherKey.initKey 42 7 [1, 2, 3] 5

/-- A concrete header key for witnesses. -/
def sampleHeaderKey : BlobCipherKey := BlobCipherKey.initKey 1 8 [4, 5, 6] 11

/-- Witness for C1 at the constant AES instance and concrete keys. -/
theorem C1_encrypt_decrypt_roundtrip_witness :
    (∀ k b, (constAes k b).length = 16) ∧
    (decrypt constAes sampleTextKey sampleHeaderKey (List.replicate 16 0)
        (encrypt constAes sampleTextKey sampleHeaderKey (List.replicate 16 0) .MULTI
          [104, 105]).1
        (encrypt constAes sampleTextKey sampleHeaderKey (List.replicate 16 0) .MULTI
          [104, 105]).2 = .ok [104, 105] ∧
      (encrypt constAes sampleTextKey sampleHeaderKey (List.replicate 16 0) .MULTI
        [104, 105]).1.length = 2) :=
  ⟨constAes_length,
    C1_encrypt_decrypt_roundtrip constAes constAes_length sampleTextKey sampleHeaderKey
      (List.replicate 16 0) .MULTI [104, 105]⟩

/-- C4: the auth tokens `encrypt` emits, by exact formula and offset.  SINGLE:
the packed header carries, at offset 72, the 16-byte truncation of
HMAC-SHA-256 keyed with the header key's derived cipher over the ciphertext
followed by the packed header with the whole 32-byte token region zeroed, and
bytes 88..104 are zero.  MULTI: offset 72 carries the truncated HMAC of the
ciphertext alone, and offset 88 the truncated HMAC of the packed header
including the already-written text token but with the header-token slot
zeroed. -/
theorem C4_auth_token_formulas (aes : Bytes → Bytes → Bytes)
    (textCipherKey headerCipherKey : BlobCipherKey) (iv : Bytes)
    (hiv : iv.length = 16) (plaintext : Bytes) :
    (slice (pack (encrypt aes textCipherKey headerCipherKey iv .SINGLE plaintext).2) 72 16 =
      (hmacSha256 headerCipherKey.cipher
        ((encrypt aes textCipherKey headerCipherKey iv .SINGLE plaintext).1 ++
          pack { (encrypt aes textCipherKey headerCipherKey iv .SINGLE plaintext).2 with
                  cipherTextAuthToken := List.replicate 16 0
                  headerAuthToken := List.replicate 16 0 })).take 16 ∧
      slice (pack (encrypt aes textCipherKey headerCipherKey iv .SINGLE plaintext).2) 88 16 =
        List.replicate 16 0) ∧
    (slice (pack (encrypt aes textCipherKey headerCipherKey iv .MULTI plaintext).2) 72 16 =
      (hmacSha256 headerCipherKey.cipher
        (encrypt aes textCipherKey headerCipherKey iv .MULTI plaintext).1).take 16 ∧
      slice (pack (encrypt aes textCipherKey headerCipherKey iv .MULTI plaintext).2) 88 16 =
        (hmacSha256 headerCipherKey.cipher
          (pack { (encrypt aes textCipherKey headerCipherKey iv .MULTI plaintext).2 with
                   headerAuthToken := List.replicate 16 0 })).take 16) := by
  refine ⟨⟨?_, ?_⟩, ?_, ?_⟩ <;>
    simp [encrypt, slice_pack_72, slice_pack_88, hiv, computeAuthToken]

/-- Witness for C4 at a concrete IV (its only hypothesis is the IV length). -/
theorem C4_auth_token_formulas_witness :
    (List.replicate 16 0 : Bytes).length = 16 ∧
    (slice (pack (encrypt constAes sampleTextKey sampleHeaderKey (List.replicate 16 0) .SINGLE
        [104]).2) 88 16 = List.replicate 16 0) :=
  ⟨by decide,
    (C4_auth_token_formulas constAes sampleTextKey sampleHeaderKey (List.replicate 16 0)
      (by simp) [104]).1.2⟩

theorem decLE_cons (x : Nat) (l : Bytes) : decLE (x :: l) = x + 256 * decLE l := rfl

theorem decLE_lt : ∀ l : Bytes, (∀ b ∈ l, b < 256) → decLE l < 256 ^ l.length := by
  intro l
  induction l with
  | nil => intro _; simp [decLE]
  | cons x xs ih =>
    intro hb
    have hx : x < 256 := hb x (List.mem_cons_self x xs)
    have hxs : decLE xs < 256 ^ xs.length := ih (fun b h => hb b (List.mem_cons_of_mem x h))
    rw [decLE_cons, List.length_cons, pow_succ]
    have hpos : 0 < 256 ^ xs.length := Nat.pos_pow_of_pos _ (by omega)
    omega

theorem decLE_inj : ∀ (l1 l2 : Bytes), l1.length = l2.length → (∀ b ∈ l1, b < 256) →
    (∀ b ∈ l2, b < 256) → decLE l1 = decLE l2 → l1 = l2 := by
  intro l1
  induction l1 with
  | nil =>
    intro l2 hlen _ _ _
    cases l2 with
    | nil => rfl
    | cons y ys => simp at hlen
  | cons x xs ih =>
    intro l2 hlen hb1 hb2 heq
    cases l2 with
    | nil => simp at hlen
    | cons y ys =>
      have hx : x < 256 := hb1 x (List.mem_cons_self x xs)
      have hy : y < 256 := hb2 y (List.mem_cons_self y ys)
      rw [decLE_cons, decLE_cons] at heq
      have hxy : x = y ∧ decLE xs = decLE ys := by omega
      have htail : xs = ys := ih ys (by simpa using hlen)
        (fun b h => hb1 b (List.mem_cons_of_mem x h))
        (fun b h => hb2 b (List.mem_cons_of_mem y h)) hxy.2
      rw [hxy.1, htail]

/-- Base-256 value of the derived key for the all-zero base cipher of length
`n` (the probe family of the C5 pigeonhole argument). -/
def c5Encode (n : Nat) : Nat :=
  decLE (applyHmacSha256Derivation (List.replicate n 0) 0 0)

theorem c5Encode_lt (n : Nat) : c5Encode n < 256 ^ 32 := by
  unfold c5Encode
  have h := decLE_lt (applyHmacSha256Derivation (List.replicate n 0) 0 0)
    (fun b hb => hmacSha256_lt _ _ b hb)
  rwa [applyHmacSha256Derivation_length] at h

theorem c5Encode_eq {n m : Nat} (h : c5Encode n = c5Encode m) :
    applyHmacSha256Derivation (List.replicate n 0) 0 0 =
      applyHmacSha256Derivation (List.replicate m 0) 0 0 := by
  unfold c5Encode at h
  exact decLE_inj _ _ (by simp) (fun b hb => hmacSha256_lt _ _ b hb)
    (fun b hb => hmacSha256_lt _ _ b hb) h

attribute [irreducible] c5Encode

/-- C5 fails as stated: the derived key is a 32-byte digest, so by pigeonhole
the derivation cannot separate all distinct `(base_cipher, domain_id, salt)`
triples — the negation of the claim's "differs whenever any input differs" is
provable outright. -/
theorem C5_derivation_counterexample :
    ¬ (∀ (k1 k2 : Bytes) (d1 d2 : Int) (s1 s2 : Nat),
        applyHmacSha256Derivation k1 d1 s1 = applyHmacSha256Derivation k2 d2 s2 →
        k1 = k2 ∧ d1 = d2 ∧ s1 = s2) := by
  intro hinj
  obtain ⟨n, m, hne, heq⟩ := Finite.exists_ne_map_eq_of_infinite
    (fun n : Nat => (⟨c5Encode n, c5Encode_lt n⟩ : Fin (256 ^ 32)))
  have hval : c5Encode n = c5Encode m := congrArg Fin.val heq
  have hk : List.replicate n (0 : Nat) = List.replicate m 0 :=
    (hinj _ _ _ _ _ _ (c5Encode_eq hval)).1
  have : n = m := by
    have := congrArg List.length hk
    simpa using this
  exact hne this

/-- C5 amended: the derivation is the stated pure function — HMAC-SHA-256
keyed with the base cipher over `salt (8 LE) ‖ domain_id (8 LE two's
complement)` — yielding exactly 32 bytes (determinism is immediate since it is
a function of its three arguments), and the message encoding itself is
injective: distinct in-range `(domain_id, salt)` pairs always produce distinct
HMAC inputs.  What cannot hold is injectivity of the 32-byte output itself
(see the counterexample), which is a collision-resistance assumption, not a
theorem. -/
theorem C5_derivation_amended (baseCipher : Bytes) (domainId : Int) (salt : Nat)
    (hd1 : -9223372036854775808 ≤ domainId) (hd2 : domainId < 9223372036854775808)
    (hs : salt < 18446744073709551616) :
    applyHmacSha256Derivation baseCipher domainId salt =
      hmacSha256 baseCipher (toLE 8 salt ++ encInt64LE domainId) ∧
    (applyHmacSha256Derivation baseCipher domainId salt).length = 32 ∧
    (∀ (domainId' : Int) (salt' : Nat), -9223372036854775808 ≤ domainId' →
      domainId' < 9223372036854775808 → salt' < 18446744073709551616 →
      toLE 8 salt ++ encInt64LE domainId = toLE 8 salt' ++ encInt64LE domainId' →
      domainId = domainId' ∧ salt = salt') := by
  refine ⟨rfl, by simp, ?_⟩
  intro domainId' salt' hd1' hd2' hs' heq
  have hsplit := List.append_inj heq (by simp)
  have h256 : (256 : Nat) ^ 8 = 18446744073709551616 := by norm_num
  constructor
  · have := congrArg decInt64LE hsplit.2
    rwa [decInt64LE_encInt64LE hd1 hd2, decInt64LE_encInt64LE hd1' hd2'] at this
  · have := congrArg decLE hsplit.1
    rwa [decLE_toLE_of_lt (by omega), decLE_toLE_of_lt (by omega)] at this

/-- Witness for C5's amended statement at concrete in-range inputs. -/
theorem C5_derivation_amended_witness :
    (-9223372036854775808 : Int) ≤ -3 ∧ (-3 : Int) < 9223372036854775808 ∧
    (12 : Nat) < 18446744073709551616 ∧
    (applyHmacSha256Derivation [1] (-3) 12).length = 32 :=
  ⟨by decide, by decide, by decide,
    (C5_derivation_amended [1] (-3) 12 (by decide) (by decide) (by decide)).2.1⟩

/-- C6: per-domain cache admission is idempotent and entries are immutable:
re-inserting byte-identical base cipher bytes at a present `(base_id, salt)`
slot is a no-op returning the cache unchanged; differing bytes fail
`UpdateCipher` (which leaves the cache untouched since the operation returns
no new cache); and an entry present before any successful insertion — via
either the exact or the latest path — is still present, unchanged, after
it. -/
theorem C6_insert_idempotent_immutable (c : BlobCipherKeyIdCache) (baseCipherId : Nat)
    (baseCipher : Bytes) (salt : Nat) :
    (∀ key, keyIdLookup c (baseCipherId, salt) = some key → key.baseCipher = baseCipher →
      insertBaseCipherKeyExact c baseCipherId baseCipher salt = .ok c) ∧
    (∀ key, keyIdLookup c (baseCipherId, salt) = some key → key.baseCipher ≠ baseCipher →
      insertBaseCipherKeyExact c baseCipherId baseCipher salt = .error .UpdateCipher) ∧
    (∀ slot key c', keyIdLookup c slot = some key →
      insertBaseCipherKeyExact c baseCipherId baseCipher salt = .ok c' →
      keyIdLookup c' slot = some key) ∧
    (∀ slot key c', keyIdLookup c slot = some key →
      insertBaseCipherKeyLatest c baseCipherId baseCipher salt = .ok c' →
      keyIdLookup c' slot = some key) := by
  refine ⟨?_, ?_, ?_, ?_⟩
  · intro key hl hbc
    simp [insertBaseCipherKeyExact, hl, hbc]
  · intro key hl hbc
    simp [insertBaseCipherKeyExact, hl, hbc]
  · intro slot key c' hl hins
    cases hm : keyIdLookup c (baseCipherId, salt) with
    | some e =>
      simp only [insertBaseCipherKeyExact, hm] at hins
      by_cases hbc : e.baseCipher = baseCipher
      · rw [if_pos hbc] at hins
        injection hins with h
        subst h
        exact hl
      · simp [hbc] at hins
    | none =>
      simp only [insertBaseCipherKeyExact, hm, Except.ok.injEq] at hins
      subst hins
      have hne : (baseCipherId, salt) ≠ slot := by
        intro hcontra
        rw [hcontra] at hm
        rw [hm] at hl
        cases hl
      simp only [keyIdLookup] at hl ⊢
      rw [List.find?_cons_of_neg]
      · exact hl
      · simp [hne]
  · intro slot key c' hl hins
    cases hm : keyIdLookup c (baseCipherId, salt) with
    | some e =>
      simp only [insertBaseCipherKeyLatest, hm] at hins
      by_cases hbc : e.baseCipher = baseCipher
      · rw [if_pos hbc] at hins
        injection hins with h
        subst h
        exact hl
      · simp [hbc] at hins
    | none =>
      simp only [insertBaseCipherKeyLatest, hm, Except.ok.injEq] at hins
      subst hins
      have hne : (baseCipherId, salt) ≠ slot := by
        intro hcontra
        rw [hcontra] at hm
        rw [hm] at hl
        cases hl
      simp only [keyIdLookup] at hl ⊢
      rw [List.find?_cons_of_neg]
      · exact hl
      · simp [hne]

/-- A one-entry cache used by the C6 witness. -/
def c6Cache : BlobCipherKeyIdCache :=
  { domainId := 0
    keyIdCache := [((7, 5), BlobCipherKey.initKey 0 7 [1, 2] 5)]
    latest := none }

/-- Witness for C6: re-inserting the identical base cipher is a no-op. -/
theorem C6_insert_idempotent_immutable_witness :
    keyIdLookup c6Cache (7, 5) = some (BlobCipherKey.initKey 0 7 [1, 2] 5) ∧
    (BlobCipherKey.initKey 0 7 [1, 2] 5).baseCipher = [1, 2] ∧
    insertBaseCipherKeyExact c6Cache 7 [1, 2] 5 = .ok c6Cache :=
  ⟨rfl, rfl, (C6_insert_idempotent_immutable c6Cache 7 [1, 2] 5).1 _ rfl rfl⟩

/-- The latest-pointer invariant the spec states for `DomainKeyIndex`: when
set, it refers to a present entry. -/
def CacheWF (c : BlobCipherKeyIdCache) : Prop :=
  ∀ lk, c.latest = some lk → (keyIdLookup c lk).isSome

/-- C7: latest-key semantics: a freshly created domain cache fails
`KeyNotFound` on `get_latest`; the exact (salt-supplying) insertion never
changes what `get_latest` returns (on any cache satisfying the spec's
latest-pointer invariant); and after two latest-path insertions, `get_latest`
returns the key admitted by the second. -/
theorem C7_latest_semantics (dId : Int) :
    getLatestCipherKey (BlobCipherKeyIdCache.init dId) = .error .KeyNotFound ∧
    (∀ c c' b k s, CacheWF c → insertBaseCipherKeyExact c b k s = .ok c' →
      getLatestCipherKey c' = getLatestCipherKey c) ∧
    (∀ b1 k1 s1 b2 k2 s2 c1 c2,
      insertBaseCipherKeyLatest (BlobCipherKeyIdCache.init dId) b1 k1 s1 = .ok c1 →
      insertBaseCipherKeyLatest c1 b2 k2 s2 = .ok c2 →
      getLatestCipherKey c2 = .ok (BlobCipherKey.initKey dId b2 k2 s2)) := by
  refine ⟨rfl, ?_, ?_⟩
  · intro c c' b k s hwf hins
    cases hm : keyIdLookup c (b, s) with
    | some e =>
      simp only [insertBaseCipherKeyExact, hm] at hins
      by_cases hbc : e.baseCipher = k
      · rw [if_pos hbc] at hins
        injection hins with h
        subst h
        rfl
      · simp [hbc] at hins
    | none =>
      simp only [insertBaseCipherKeyExact, hm, Except.ok.injEq] at hins
      subst hins
      cases hl : c.latest with
      | none => simp [getLatestCipherKey, hl]
      | some lk =>
        obtain ⟨key, hkey⟩ := Option.isSome_iff_exists.mp (hwf lk hl)
        have hne : (b, s) ≠ lk := by
          intro hcontra
          rw [hcontra] at hm
          rw [hm] at hkey
          cases hkey
        simp only [getLatestCipherKey, hl]
        simp only [keyIdLookup] at hkey ⊢
        rw [List.find?_cons_of_neg _ (by simp [hne])]
  · intro b1 k1 s1 b2 k2 s2 c1 c2 hins1 hins2
    have hstep : insertBaseCipherKeyLatest (BlobCipherKeyIdCache.init dId) b1 k1 s1 =
        .ok { domainId := dId
              keyIdCache := [((b1, s1), BlobCipherKey.initKey dId b1 k1 s1)]
              latest := some (b1, s1) } := rfl
    rw [hstep] at hins1
    injection hins1 with h
    subst h
    by_cases h12 : (b1, s1) = (b2, s2)
    · have hlook : keyIdLookup
          { domainId := dId
            keyIdCache := [((b1, s1), BlobCipherKey.initKey dId b1 k1 s1)]
            latest := some (b1, s1) } (b2, s2) =
          some (BlobCipherKey.initKey dId b1 k1 s1) := by
        simp [keyIdLookup, BlobCipherKeyIdCache.init, List.find?_cons_of_pos, h12]
      simp only [insertBaseCipherKeyLatest, hlook] at hins2
      by_cases hk12 : (BlobCipherKey.initKey dId b1 k1 s1).baseCipher = k2
      · rw [if_pos hk12] at hins2
        injection hins2 with h
        subst h
        have hb : b1 = b2 := congrArg Prod.fst h12
        have hs : s1 = s2 := congrArg Prod.snd h12
        have hk : k1 = k2 := hk12
        subst hb hs hk
        simp [getLatestCipherKey, keyIdLookup, List.find?_cons_of_pos]
      · simp [hk12] at hins2
    · have hlook : keyIdLookup
          { domainId := dId
            keyIdCache := [((b1, s1), BlobCipherKey.initKey dId b1 k1 s1)]
            latest := some (b1, s1) } (b2, s2) = none := by
        simp [keyIdLookup, List.find?_cons_of_neg, h12]
      simp only [insertBaseCipherKeyLatest, hlook, Except.ok.injEq] at hins2
      subst hins2
      simp [getLatestCipherKey, keyIdLookup, List.find?_cons_of_pos]

/-- The cache after one latest-path insertion, for the C7 witness. -/
def c7CacheOne : BlobCipherKeyIdCache :=
  { domainId := 1
    keyIdCache := [((1, 2), BlobCipherKey.initKey 1 1 [1] 2)]
    latest := some (1, 2) }

/-- The cache after a second latest-path insertion, for the C7 witness. -/
def c7CacheTwo : BlobCipherKeyIdCache :=
  { domainId := 1
    keyIdCache := [((3, 5), BlobCipherKey.initKey 1 3 [4] 5), ((1, 2), BlobCipherKey.initKey 1 1 [1] 2)]
    latest := some (3, 5) }

/-- Witness for C7: two concrete latest-path insertions. -/
theorem C7_latest_semantics_witness :
    insertBaseCipherKeyLatest (BlobCipherKeyIdCache.init 1) 1 [1] 2 = .ok c7CacheOne ∧
    insertBaseCipherKeyLatest c7CacheOne 3 [4] 5 = .ok c7CacheTwo ∧
    getLatestCipherKey c7CacheTwo = .ok (BlobCipherKey.initKey 1 3 [4] 5) :=
  ⟨rfl, rfl, (C7_latest_semantics 1).2.2 1 [1] 2 3 [4] 5 c7CacheOne c7CacheTwo rfl rfl⟩

theorem flipBit_ne {l : Bytes} (i j : Nat) (hi : i < l.length) : flipBit l i j ≠ l := by
  intro hcontra
  have hlen : i < (l.set i (l.getD i 0 ^^^ (1 <<< j))).length := by
    simpa using hi
  have hget : (l.set i (l.getD i 0 ^^^ (1 <<< j))).getD i 0 = l.getD i 0 ^^^ (1 <<< j) := by
    rw [List.getD_eq_getElem _ _ hlen]
    simp
  have hself : (flipBit l i j).getD i 0 = l.getD i 0 := by rw [hcontra]
  rw [flipBit] at hself
  rw [hget] at hself
  have hp : (1 <<< j) = 0 := by
    have h1 : l.getD i 0 ^^^ (l.getD i 0 ^^^ (1 <<< j)) = l.getD i 0 ^^^ l.getD i 0 := by
      rw [hself]
    rwa [← Nat.xor_assoc, Nat.xor_self, Nat.zero_xor] at h1
  rw [Nat.one_shiftLeft] at hp
  exact absurd hp (Nat.pos_iff_ne_zero.mp (Nat.pos_pow_of_pos j (by omega)))

/-- Characterization: `decrypt` fails with `AuthTokenMismatch` exactly when the header-token
verification fails or the payload-token check is false. -/
theorem decrypt_authTokenMismatch_iff (aes : Bytes → Bytes → Bytes)
    (textCipherKey headerCipherKey : BlobCipherKey) (iv ciphertext : Bytes)
    (header : BlobCipherEncryptHeader) :
    decrypt aes textCipherKey headerCipherKey iv ciphertext header =
        .error .AuthTokenMismatch ↔
      (verifyHeaderAuthToken headerCipherKey header = .error .AuthTokenMismatch ∨
        (verifyHeaderAuthToken headerCipherKey header = .ok () ∧
          payloadAuthTokenOk headerCipherKey ciphertext header = false)) := by
  cases hv : verifyHeaderAuthToken headerCipherKey header with
  | error e =>
    simp only [decrypt, hv]
    simp
  | ok u =>
    cases u
    simp only [decrypt, hv]
    by_cases hp : payloadAuthTokenOk headerCipherKey ciphertext header = true
    · rw [if_pos hp]
      constructor
      · intro hres
        split at hres
        · split at hres
          · exact absurd hres (by simp)
          · exact absurd hres (by simp)
        · exact absurd hres (by simp)
      · intro hcontra
        rcases hcontra with h | ⟨_, h2⟩
        · exact absurd h (by simp)
        · rw [hp] at h2
          exact absurd h2 (by simp)
    · have hp' : payloadAuthTokenOk headerCipherKey ciphertext header = false := by
        cases hx : payloadAuthTokenOk headerCipherKey ciphertext header
        · rfl
        · exact absurd hx hp
      rw [if_neg hp]
      simp [hp']

/-- C2 amended: the exact shape of decrypt-side integrity verification.  NONE
performs no verification (the result never depends on the token slots);
`verify_header` is a no-op unless the mode is MULTI, where it fails
`AuthTokenMismatch` exactly when the recomputed header token (header-token
slot zeroed) differs from the stored 16 bytes; `decrypt` fails
`AuthTokenMismatch` exactly when a recomputed token differs from its stored
slot (the combined token in SINGLE; either token in MULTI); and flipping any
bit of the stored auth-token slot of an encrypt-produced SINGLE block is
always detected.  (Bit flips elsewhere are caught exactly when they change an
HMAC input without a collision — and a flip of the auth-token-mode byte
itself can evade detection entirely, see the counterexample.) -/
theorem C2_auth_verification (aes : Bytes → Bytes → Bytes)
    (textCipherKey headerCipherKey : BlobCipherKey) (iv ciphertext : Bytes)
    (header : BlobCipherEncryptHeader) :
    (header.authTokenMode = .NONE → ∀ tA tB,
      decrypt aes textCipherKey headerCipherKey iv ciphertext
        { header with cipherTextAuthToken := tA, headerAuthToken := tB } =
      decrypt aes textCipherKey headerCipherKey iv ciphertext header) ∧
    (header.authTokenMode ≠ .MULTI →
      verifyHeaderAuthToken headerCipherKey header = .ok ()) ∧
    (header.authTokenMode = .MULTI →
      (verifyHeaderAuthToken headerCipherKey header = .error .AuthTokenMismatch ↔
        computeAuthToken (pack { header with headerAuthToken := List.replicate 16 0 })
          headerCipherKey.cipher ≠ header.headerAuthToken)) ∧
    (header.authTokenMode = .SINGLE →
      (decrypt aes textCipherKey headerCipherKey iv ciphertext header =
          .error .AuthTokenMismatch ↔
        computeAuthToken
          (ciphertext ++ pack { header with cipherTextAuthToken := List.replicate 16 0 })
          headerCipherKey.cipher ≠ header.cipherTextAuthToken)) ∧
    (header.authTokenMode = .MULTI →
      (decrypt aes textCipherKey headerCipherKey iv ciphertext header =
          .error .AuthTokenMismatch ↔
        (computeAuthToken (pack { header with headerAuthToken := List.replicate 16 0 })
          headerCipherKey.cipher ≠ header.headerAuthToken ∨
         computeAuthToken ciphertext headerCipherKey.cipher ≠
          header.cipherTextAuthToken))) ∧
    (∀ plaintext i j, i < 16 → j < 8 →
      decrypt aes textCipherKey headerCipherKey iv
        (encrypt aes textCipherKey headerCipherKey iv .SINGLE plaintext).1
        { (encrypt aes textCipherKey headerCipherKey iv .SINGLE plaintext).2 with
          cipherTextAuthToken :=
            flipBit (encrypt aes textCipherKey headerCipherKey iv
              .SINGLE plaintext).2.cipherTextAuthToken i j } =
        .error .AuthTokenMismatch) := by
  obtain ⟨s, v, e, m, td, hd, tA, tB⟩ := header
  refine ⟨?_, ?_, ?_, ?_, ?_, ?_⟩
  · intro hm tA' tB'
    cases hm
    simp [decrypt, verifyHeaderAuthToken, payloadAuthTokenOk]
  · intro hm
    cases m <;> simp_all [verifyHeaderAuthToken]
  · intro hm
    cases hm
    simp only [verifyHeaderAuthToken]
    by_cases hc : computeAuthToken
        (pack { size := s, headerVersion := v, encryptMode := e, authTokenMode := .MULTI,
                cipherTextDetails := td, cipherHeaderDetails := hd,
                cipherTextAuthToken := tA, headerAuthToken := List.replicate 16 0 })
        headerCipherKey.cipher = tB <;>
      simp [hc]
  · intro hm
    cases hm
    rw [decrypt_authTokenMismatch_iff]
    have hv : verifyHeaderAuthToken headerCipherKey
        { size := s, headerVersion := v, encryptMode := e, authTokenMode := .SINGLE,
          cipherTextDetails := td, cipherHeaderDetails := hd,
          cipherTextAuthToken := tA, headerAuthToken := tB } = .ok () := rfl
    rw [hv]
    simp [payloadAuthTokenOk, decide_eq_false_iff_not]
  · intro hm
    cases hm
    rw [decrypt_authTokenMismatch_iff]
    simp only [verifyHeaderAuthToken, payloadAuthTokenOk]
    by_cases hc1 : computeAuthToken
        (pack { size := s, headerVersion := v, encryptMode := e, authTokenMode := .MULTI,
                cipherTextDetails := td, cipherHeaderDetails := hd,
                cipherTextAuthToken := tA, headerAuthToken := List.replicate 16 0 })
        headerCipherKey.cipher = tB
    · rw [if_pos hc1]
      by_cases hc2 : computeAuthToken ciphertext headerCipherKey.cipher = tA
      · constructor
        · intro h
          rcases h with h | ⟨_, h2⟩
          · exact absurd h (by simp)
          · exact absurd hc2 (of_decide_eq_false h2)
        · intro h
          rcases h with h | h
          · exact absurd hc1 h
          · exact absurd hc2 h
      · constructor
        · intro _
          exact Or.inr hc2
        · intro _
          exact Or.inr ⟨rfl, decide_eq_false hc2⟩
    · rw [if_neg hc1]
      constructor
      · intro _
        exact Or.inl hc1
      · intro _
        exact Or.inl rfl
  · intro plaintext i j hi hj
    simp only [encrypt, decrypt, verifyHeaderAuthToken, payloadAuthTokenOk]
    split
    · next h =>
      have heq := of_decide_eq_true h
      exact absurd heq.symm (flipBit_ne i j (by simp [hi]))
    · rfl

/-- Witness for C2: a no-op `verify_header` instance and a detected bit flip
of the stored token on a concrete SINGLE-mode block. -/
theorem C2_auth_verification_witness :
    sampleHeader.authTokenMode ≠ .MULTI ∧
    verifyHeaderAuthToken sampleHeaderKey sampleHeader = .ok () ∧
    (0 : Nat) < 16 ∧ (0 : Nat) < 8 ∧
    decrypt constAes sampleTextKey sampleHeaderKey (List.replicate 16 0)
      (encrypt constAes sampleTextKey sampleHeaderKey (List.replicate 16 0) .SINGLE [104]).1
      { (encrypt constAes sampleTextKey sampleHeaderKey (List.replicate 16 0) .SINGLE
          [104]).2 with
        cipherTextAuthToken := flipBit (encrypt constAes sampleTextKey sampleHeaderKey
          (List.replicate 16 0) .SINGLE [104]).2.cipherTextAuthToken 0 0 } =
      .error .AuthTokenMismatch :=
  ⟨by decide,
    (C2_auth_verification constAes sampleTextKey sampleHeaderKey (List.replicate 16 0) []
      sampleHeader).2.1 (by decide),
    by decide, by decide,
    (C2_auth_verification constAes sampleTextKey sampleHeaderKey (List.replicate 16 0) []
      sampleHeader).2.2.2.2.2 [104] 0 0 (by decide) (by decide)⟩

/-- C2 fails as stated: on a SINGLE-mode encrypted block, flipping bit 0 of
header byte 3 — the auth-token-mode byte, a non-reserved header bit — turns
the mode into NONE, and decrypt then *succeeds* (returning the plaintext)
instead of failing with `AuthTokenMismatch`. -/
theorem C2_mode_bit_flip_counterexample :
    (encrypt constAes sampleTextKey sampleHeaderKey (List.replicate 16 0) .SINGLE
      [104, 105]).2.authTokenMode = .SINGLE ∧
    Except.bind
      (unpack (flipBit (pack (encrypt constAes sampleTextKey sampleHeaderKey
        (List.replicate 16 0) .SINGLE [104, 105]).2) 3 0))
      (decrypt constAes sampleTextKey sampleHeaderKey (List.replicate 16 0)
        (encrypt constAes sampleTextKey sampleHeaderKey (List.replicate 16 0) .SINGLE
          [104, 105]).1) = .ok [104, 105] := by
  exact ⟨rfl, by decide⟩

/-- A plain cipher key (32-byte working key given directly) used by the C8
statements. -/
def c8Key : BlobCipherKey :=
  { encryptDomainId := 42
    baseCipherId := 7
    baseCipher := [4]
    randomSalt := 9
    cipher := List.replicate 32 2 }

/-- The NONE-mode header used by the C8 witness. -/
def c8Header : BlobCipherEncryptHeader := { sampleHeader with authTokenMode := .NONE }

/-- C8 amended: decrypt's AES-256-CTR step always uses the IV stored in the
header (any successful decrypt output equals CTR under `header.iv`), and when
the auth-token verification passes, a constructor IV differing from the header
IV fails with `HeaderMalformed`.  (As the counterexample shows, the claim's
unconditional `HeaderMalformed` is wrong: the token checks run first, so a
block that also fails token verification reports `AuthTokenMismatch`.) -/
theorem C8_iv_semantics (aes : Bytes → Bytes → Bytes)
    (textCipherKey headerCipherKey : BlobCipherKey) (iv ciphertext : Bytes)
    (header : BlobCipherEncryptHeader) :
    (∀ res, decrypt aes textCipherKey headerCipherKey iv ciphertext header = .ok res →
      res = aes256CtrXcrypt aes textCipherKey.cipher header.cipherTextDetails.iv ciphertext) ∧
    (verifyHeaderAuthToken headerCipherKey header = .ok () →
      payloadAuthTokenOk headerCipherKey ciphertext header = true →
      iv ≠ header.cipherTextDetails.iv →
      decrypt aes textCipherKey headerCipherKey iv ciphertext header =
        .error .HeaderMalformed) := by
  constructor
  · intro res hres
    cases hv : verifyHeaderAuthToken headerCipherKey header with
    | error e => simp [decrypt, hv] at hres
    | ok u =>
      cases u
      simp only [decrypt, hv] at hres
      split at hres
      · split at hres
        · split at hres
          · injection hres with h
            exact h.symm
          · exact absurd hres (by simp)
        · exact absurd hres (by simp)
      · exact absurd hres (by simp)
  · intro hv hp hiv
    simp [decrypt, hv, hp, hiv]

/-- Witness for C8 on a NONE-mode header with a wrong constructor IV. -/
theorem C8_iv_semantics_witness :
    verifyHeaderAuthToken sampleHeaderKey c8Header = .ok () ∧
    payloadAuthTokenOk sampleHeaderKey [] c8Header = true ∧
    (List.replicate 16 4 : Bytes) ≠ c8Header.cipherTextDetails.iv ∧
    decrypt constAes sampleTextKey sampleHeaderKey (List.replicate 16 4) [] c8Header =
      .error .HeaderMalformed :=
  ⟨rfl, rfl, by decide,
    (C8_iv_semantics constAes sampleTextKey sampleHeaderKey (List.replicate 16 4) []
      c8Header).2 rfl rfl (by decide)⟩

set_option maxRecDepth 100000 in
set_option maxHeartbeats 4000000 in
/-- C8 fails as stated: with a SINGLE-mode header whose stored token does not
match (and a wrong constructor IV), decrypt reports `AuthTokenMismatch`, not
`HeaderMalformed` — the token checks run before the IV check. -/
theorem C8_iv_counterexample :
    (List.replicate 16 4 : Bytes) ≠ sampleHeader.cipherTextDetails.iv ∧
    decrypt constAes c8Key c8Key (List.replicate 16 4) [] sampleHeader =
      .error .AuthTokenMismatch ∧
    decrypt constAes c8Key c8Key (List.replicate 16 4) [] sampleHeader ≠
      .error .HeaderMalformed := by
  have hmain : decrypt constAes c8Key c8Key (List.replicate 16 4) [] sampleHeader =
      .error .AuthTokenMismatch := by decide
  refine ⟨by decide, hmain, ?_⟩
  rw [hmain]
  decide

end FdbBlobCipher
